import Mathlib

/-!
Verification of the amberize archive engine (content-addressed blob store,
hash-chained audit log, integrity protocol, IMAP sync orchestration) against
its natural-language specification.

The Rust source is shallowly embedded: SQLite tables become Lean lists of row
structures, each storage operation becomes a pure function on an explicit
`Db` state, and the `sha2` crate's SHA-256 is implemented here over byte
lists (machine words are `Nat` reduced `% 2^32`).  Clock reads
(`now_rfc3339()`) are threaded as explicit string arguments.
-/

namespace Amberize

/-! ## SHA-256 over byte lists (embedding of the `sha2` crate usage) -/

def m32 : Nat := 4294967296

def add32 (a b : Nat) : Nat := (a + b) % m32

def rotr32 (n x : Nat) : Nat :=
  ((x >>> n) ||| (x <<< (32 - n))) % m32

def shr32 (n x : Nat) : Nat := x >>> n

def bxor (a b : Nat) : Nat := Nat.xor a b

def band (a b : Nat) : Nat := Nat.land a b

def bnot32 (x : Nat) : Nat := Nat.xor x (m32 - 1)

def bigSigma0 (x : Nat) : Nat := bxor (rotr32 2 x) (bxor (rotr32 13 x) (rotr32 22 x))

def bigSigma1 (x : Nat) : Nat := bxor (rotr32 6 x) (bxor (rotr32 11 x) (rotr32 25 x))

def smallSigma0 (x : Nat) : Nat := bxor (rotr32 7 x) (bxor (rotr32 18 x) (shr32 3 x))

def smallSigma1 (x : Nat) : Nat := bxor (rotr32 17 x) (bxor (rotr32 19 x) (shr32 10 x))

def chFn (x y z : Nat) : Nat := bxor (band x y) (band (bnot32 x) z)

def majFn (x y z : Nat) : Nat := bxor (band x y) (bxor (band x z) (band y z))

/-- The 64 SHA-256 round constants (FIPS 180-4), written in decimal. -/
def K256 : List Nat :=
  [1116352408, 1899447441, 3049323471, 3921009573,
   961987163, 1508970993, 2453635748, 2870763221,
   3624381080, 310598401, 607225278, 1426881987,
   1925078388, 2162078206, 2614888103, 3248222580,
   3835390401, 4022224774, 264347078, 604807628,
   770255983, 1249150122, 1555081692, 1996064986,
   2554220882, 2821834349, 2952996808, 3210313671,
   3336571891, 3584528711, 113926993, 338241895,
   666307205, 773529912, 1294757372, 1396182291,
   1695183700, 1986661051, 2177026350, 2456956037,
   2730485921, 2820302411, 3259730800, 3345764771,
   3516065817, 3600352804, 4094571909, 275423344,
   430227734, 506948616, 659060556, 883997877,
   958139571, 1322822218, 1537002063, 1747873779,
   1955562222, 2024104815, 2227730452, 2361852424,
   2428436474, 2756734187, 3204031479, 3329325298]

/-- The eight SHA-256 initial hash values, written in decimal. -/
def H256 : List Nat :=
  [1779033703, 3144134277, 1013904242, 2773480762,
   1359893119, 2600822924, 528734635, 1541459225]

/-- Number of zero pad bytes so that `len + 1 + k + 8` is a multiple of 64. -/
def padZeroCount (len : Nat) : Nat := (64 - (len + 9) % 64) % 64

def lenBytesBE (bits : Nat) : List Nat :=
  [bits >>> 56 % 256, bits >>> 48 % 256, bits >>> 40 % 256, bits >>> 32 % 256,
   bits >>> 24 % 256, bits >>> 16 % 256, bits >>> 8 % 256, bits % 256]

def padBytes (msg : List Nat) : List Nat :=
  msg ++ [0x80] ++ List.replicate (padZeroCount msg.length) 0 ++ lenBytesBE (8 * msg.length % 2 ^ 64)

def wordsOf : List Nat → List Nat
  | b0 :: b1 :: b2 :: b3 :: rest =>
      (((b0 * 256 + b1) * 256 + b2) * 256 + b3) :: wordsOf rest
  | _ => []

def wAt (l : List Nat) (i : Nat) : Nat := l.getD i 0

/-- Extend a 16-word block to the 64-word message schedule. -/
def extendW : Nat → List Nat → List Nat
  | 0, ws => ws
  | fuel + 1, ws =>
      let n := ws.length
      let w := add32 (add32 (smallSigma1 (wAt ws (n - 2))) (wAt ws (n - 7)))
                     (add32 (smallSigma0 (wAt ws (n - 15))) (wAt ws (n - 16)))
      extendW fuel (ws ++ [w])

def roundStep (k w : Nat) : List Nat → List Nat
  | [a, b, c, d, e, f, g, h] =>
      let t1 := add32 h (add32 (bigSigma1 e) (add32 (chFn e f g) (add32 k w)))
      let t2 := add32 (bigSigma0 a) (majFn a b c)
      [add32 t1 t2, a, b, c, add32 d t1, e, f, g]
  | st => st

def rounds64 : List Nat → List Nat → List Nat → List Nat
  | k :: ks, w :: ws, st => rounds64 ks ws (roundStep k w st)
  | _, _, st => st

def compressBlock (h : List Nat) (block : List Nat) : List Nat :=
  let ws := extendW 48 block
  let st := rounds64 K256 ws h
  List.zipWith add32 h st

def processBlocks (h : List Nat) : List Nat → List Nat
  | w0 :: w1 :: w2 :: w3 :: w4 :: w5 :: w6 :: w7 ::
    w8 :: w9 :: w10 :: w11 :: w12 :: w13 :: w14 :: w15 :: rest =>
      processBlocks
        (compressBlock h [w0, w1, w2, w3, w4, w5, w6, w7, w8, w9, w10, w11, w12, w13, w14, w15])
        rest
  | _ => h

def bytesOfWord (w : Nat) : List Nat :=
  [w >>> 24 % 256, w >>> 16 % 256, w >>> 8 % 256, w % 256]

/-- SHA-256 digest (32 bytes) of a byte list. -/
def sha256 (msg : List Nat) : List Nat :=
  (processBlocks H256 (wordsOf (padBytes msg))).flatMap bytesOfWord

def hexDigitChar (n : Nat) : Char :=
  (("0123456789abcdef".data).getD n '0')

def hexOfByte (b : Nat) : List Char :=
  [hexDigitChar (b / 16), hexDigitChar (b % 16)]

/-- Lowercase hex encoding of a byte list (embedding of `hex::encode`). -/
def hexEncode (bytes : List Nat) : String :=
  ⟨bytes.flatMap hexOfByte⟩

/-- UTF-8 bytes of one Unicode scalar value. -/
def utf8Char (c : Char) : List Nat :=
  let n := c.toNat
  if n < 0x80 then [n]
  else if n < 0x800 then [0xc0 + n / 64, 0x80 + n % 64]
  else if n < 0x10000 then [0xe0 + n / 4096, 0x80 + n / 64 % 64, 0x80 + n % 64]
  else [0xf0 + n / 262144, 0x80 + n / 4096 % 64, 0x80 + n / 64 % 64, 0x80 + n % 64]

/-- UTF-8 byte sequence of a string (`str::as_bytes` in the source). -/
def utf8Bytes (s : String) : List Nat :=
  s.data.flatMap utf8Char

/-- Embedding of the source's `sha256_hex` helper: lowercase hex of SHA-256. -/
def sha256HexBytes (data : List Nat) : String :=
  hexEncode (sha256 data)

def sha256HexOfString (s : String) : String :=
  sha256HexBytes (utf8Bytes s)

/-! ## Data model (rows of the SQLite tables in `crates/storage/src/lib.rs`) -/

structure MessageBlobRow where
  id : Nat
  sha256 : String
  stored_encoding : String
  raw_mime : List Nat
  raw_mime_size_bytes : Nat
  stored_size_bytes : Nat
  message_id : Option String
  date_header : Option String
  from_address : Option String
  to_addresses : Option String
  cc_addresses : Option String
  subject : Option String
  body_text : Option String
  imported_at : String
deriving DecidableEq, Repr

structure EventRow where
  id : Nat
  occurred_at : String
  kind : String
  account_id : Option Nat
  mailbox_id : Option Nat
  message_blob_id : Option Nat
  detail : Option String
  prev_hash : String
  hash : String
deriving DecidableEq, Repr

structure MailboxRow where
  id : Nat
  account_id : Nat
  imap_name : String
  delimiter : Option String
  attributes : Option String
  sync_enabled : Bool
  hard_excluded : Bool
  uidvalidity : Option Nat
  last_seen_uid : Nat
  last_sync_at : Option String
  last_error : Option String
  created_at : String
  updated_at : String
deriving DecidableEq, Repr

structure MessageLocationRow where
  id : Nat
  message_blob_id : Nat
  account_id : Nat
  mailbox_id : Nat
  uidvalidity : Nat
  uid : Nat
  internal_date : Option String
  flags : Option String
  provider_message_id : Option String
  provider_thread_id : Option String
  provider_labels : Option String
  provider_meta_json : Option String
  first_seen_at : String
  last_seen_at : String
  gone_from_server_at : Option String
deriving DecidableEq, Repr

/-- The persisted archive state: the four tables of §3, plus the
`AUTOINCREMENT` counters (SQLite never reuses rowids). -/
structure Db where
  mailboxes : List MailboxRow
  message_blobs : List MessageBlobRow
  message_locations : List MessageLocationRow
  events : List EventRow
  next_mailbox_id : Nat
  next_blob_id : Nat
  next_location_id : Nat
  next_event_id : Nat
deriving DecidableEq, Repr

structure InsertEventInput where
  occurred_at : String
  kind : String
  account_id : Option Nat
  mailbox_id : Option Nat
  message_blob_id : Option Nat
  detail : String
deriving DecidableEq, Repr

structure InsertMessageBlobInput where
  sha256 : String
  stored_encoding : String
  raw_mime : List Nat
  raw_mime_size_bytes : Nat
  stored_size_bytes : Nat
  message_id : Option String
  date_header : Option String
  from_address : Option String
  to_addresses : Option String
  cc_addresses : Option String
  subject : Option String
  body_text : Option String
  imported_at : String
deriving DecidableEq, Repr

structure IngestMessageLocationInput where
  account_id : Nat
  mailbox_id : Nat
  uidvalidity : Nat
  uid : Nat
  internal_date : Option String
  flags : Option String
  provider_message_id : Option String
  provider_thread_id : Option String
  provider_labels : Option String
  provider_meta_json : Option String
  first_seen_at : String
  last_seen_at : String
deriving DecidableEq, Repr

structure UpsertMessageLocationInput where
  message_blob_id : Nat
  account_id : Nat
  mailbox_id : Nat
  uidvalidity : Nat
  uid : Nat
  internal_date : Option String
  flags : Option String
  provider_message_id : Option String
  provider_thread_id : Option String
  provider_labels : Option String
  provider_meta_json : Option String
  first_seen_at : String
  last_seen_at : String
deriving DecidableEq, Repr

structure UpsertMailboxInput where
  account_id : Nat
  imap_name : String
  delimiter : Option String
  attributes : Option String
  sync_enabled : Bool
  hard_excluded : Bool
  uidvalidity : Option Nat
  last_seen_uid : Nat
deriving DecidableEq, Repr

def EVENT_KIND_EMAIL_ARCHIVED : String := "email_archived"

def EVENT_KIND_SYNC_FINISHED : String := "sync_finished"

/-- `"0".repeat(64)`: the `prev_hash` of the first event. -/
def zeros64 : String := ⟨List.replicate 64 '0'⟩

/-- Optional ids hash as their decimal ASCII, or as the empty string when
absent (the `if let Some(..)` branches of `compute_event_hash`). -/
def optIdStr : Option Nat → String
  | none => ""
  | some i => toString i

/-! ## Audit-log operations (`insert_event_tx`, `compute_event_hash`) -/

/-- Embedding of `compute_event_hash`: the hasher is updated field by field
with a single LF between fields, which hashes the concatenation. -/
def compute_event_hash (prev_hash : String) (input : InsertEventInput) : String :=
  sha256HexBytes
    (utf8Bytes prev_hash ++ [10] ++
     utf8Bytes input.occurred_at ++ [10] ++
     utf8Bytes input.kind ++ [10] ++
     utf8Bytes (optIdStr input.account_id) ++ [10] ++
     utf8Bytes (optIdStr input.mailbox_id) ++ [10] ++
     utf8Bytes (optIdStr input.message_blob_id) ++ [10] ++
     utf8Bytes input.detail)

def maxIdStep (acc : Option EventRow) (e : EventRow) : Option EventRow :=
  match acc with
  | none => some e
  | some a => if a.id < e.id then some e else some a

/-- The row returned by `SELECT ... ORDER BY id DESC LIMIT 1`. -/
def maxIdRow (l : List EventRow) : Option EventRow :=
  List.foldl maxIdStep none l

/-- Embedding of `last_event_hash_tx`. -/
def last_event_hash (db : Db) : Option String :=
  (maxIdRow db.events).map (fun e => e.hash)

/-- The row built by `insert_event_tx`: tail hash as `prev_hash`, new hash
per `compute_event_hash`, next rowid. -/
def new_event_row (db : Db) (input : InsertEventInput) : EventRow :=
  let prev_hash := (last_event_hash db).getD zeros64
  { id := db.next_event_id
    occurred_at := input.occurred_at
    kind := input.kind
    account_id := input.account_id
    mailbox_id := input.mailbox_id
    message_blob_id := input.message_blob_id
    detail := some input.detail
    prev_hash := prev_hash
    hash := compute_event_hash prev_hash input }

/-- Embedding of `insert_event_tx`: read the tail hash, compute the new hash,
insert; returns the new event id (`last_insert_rowid`). -/
def insert_event_tx (db : Db) (input : InsertEventInput) : Db × Nat :=
  ({ db with
     events := db.events ++ [new_event_row db input]
     next_event_id := db.next_event_id + 1 },
   db.next_event_id)

/-- Embedding of `Storage::append_event` (one transaction per call). -/
def append_event (db : Db) (input : InsertEventInput) : Db × Nat :=
  insert_event_tx db input

/-! ## Blob store and location index -/

def locationKeyMatches (input_mailbox_id input_uidvalidity input_uid : Nat)
    (l : MessageLocationRow) : Bool :=
  l.mailbox_id == input_mailbox_id && l.uidvalidity == input_uidvalidity && l.uid == input_uid

/-- Embedding of `upsert_message_location_tx` (`INSERT ... ON CONFLICT(mailbox_id,
uidvalidity, uid) DO UPDATE`). -/
def upsert_message_location_tx (db : Db) (input : UpsertMessageLocationInput) : Db :=
  if db.message_locations.any (locationKeyMatches input.mailbox_id input.uidvalidity input.uid) then
    { db with
      message_locations := db.message_locations.map (fun l =>
        if locationKeyMatches input.mailbox_id input.uidvalidity input.uid l then
          { l with
            message_blob_id := input.message_blob_id
            internal_date := input.internal_date
            flags := input.flags
            provider_message_id := input.provider_message_id
            provider_thread_id := input.provider_thread_id
            provider_labels := input.provider_labels
            provider_meta_json := input.provider_meta_json
            last_seen_at := input.last_seen_at
            gone_from_server_at := none }
        else l) }
  else
    { db with
      message_locations := db.message_locations ++
        [{ id := db.next_location_id
           message_blob_id := input.message_blob_id
           account_id := input.account_id
           mailbox_id := input.mailbox_id
           uidvalidity := input.uidvalidity
           uid := input.uid
           internal_date := input.internal_date
           flags := input.flags
           provider_message_id := input.provider_message_id
           provider_thread_id := input.provider_thread_id
           provider_labels := input.provider_labels
           provider_meta_json := input.provider_meta_json
           first_seen_at := input.first_seen_at
           last_seen_at := input.last_seen_at
           gone_from_server_at := none }]
      next_location_id := db.next_location_id + 1 }

/-- `SELECT id FROM message_blobs WHERE sha256 = ?1` (callers only reach this
after the row is guaranteed present; the impossible branch yields 0). -/
def message_blob_id_by_sha256_tx (db : Db) (sha : String) : Option Nat :=
  (db.message_blobs.find? (fun b => b.sha256 == sha)).map (fun b => b.id)

def blobWithSha (db : Db) (sha : String) : Bool :=
  db.message_blobs.any (fun b => b.sha256 == sha)

/-- Detail payload of an `email_archived` event:
`format!(r#"{{"sha256":"{}"}}"#, sha)`. -/
def email_archived_detail (sha : String) : String :=
  "\x7b\"sha256\":\"" ++ sha ++ "\"\x7d"

/-- The blob row built by the `INSERT OR IGNORE` of `ingest_message`. -/
def new_blob_row (db : Db) (blob_input : InsertMessageBlobInput) : MessageBlobRow :=
  { id := db.next_blob_id
    sha256 := blob_input.sha256
    stored_encoding := blob_input.stored_encoding
    raw_mime := blob_input.raw_mime
    raw_mime_size_bytes := blob_input.raw_mime_size_bytes
    stored_size_bytes := blob_input.stored_size_bytes
    message_id := blob_input.message_id
    date_header := blob_input.date_header
    from_address := blob_input.from_address
    to_addresses := blob_input.to_addresses
    cc_addresses := blob_input.cc_addresses
    subject := blob_input.subject
    body_text := blob_input.body_text
    imported_at := blob_input.imported_at }

/-- Embedding of `Storage::ingest_message`: one transaction doing
`INSERT OR IGNORE` of the blob (keyed on the `sha256` UNIQUE constraint),
blob-id resolution, location upsert, and — only when the blob row is newly
created — the `email_archived` event append. -/
def ingest_message (db : Db) (blob_input : InsertMessageBlobInput)
    (location_input : IngestMessageLocationInput) (now : String) : Db × Nat :=
  let blob_is_new := !blobWithSha db blob_input.sha256
  let db1 :=
    if blob_is_new then
      { db with
        message_blobs := db.message_blobs ++ [new_blob_row db blob_input]
        next_blob_id := db.next_blob_id + 1 }
    else db
  let blob_id := (message_blob_id_by_sha256_tx db1 blob_input.sha256).getD 0
  let db2 := upsert_message_location_tx db1
    { message_blob_id := blob_id
      account_id := location_input.account_id
      mailbox_id := location_input.mailbox_id
      uidvalidity := location_input.uidvalidity
      uid := location_input.uid
      internal_date := location_input.internal_date
      flags := location_input.flags
      provider_message_id := location_input.provider_message_id
      provider_thread_id := location_input.provider_thread_id
      provider_labels := location_input.provider_labels
      provider_meta_json := location_input.provider_meta_json
      first_seen_at := location_input.first_seen_at
      last_seen_at := location_input.last_seen_at }
  if blob_is_new then
    ((insert_event_tx db2
        { occurred_at := now
          kind := EVENT_KIND_EMAIL_ARCHIVED
          account_id := some location_input.account_id
          mailbox_id := some location_input.mailbox_id
          message_blob_id := some blob_id
          detail := email_archived_detail blob_input.sha256 }).1,
     blob_id)
  else
    (db2, blob_id)

/-! ## Root hash and counts -/

def count_message_blobs (db : Db) : Nat := db.message_blobs.length

/-- Embedding of `compute_message_blobs_root_hash`:
`SELECT sha256 FROM message_blobs ORDER BY sha256 ASC`, then hash each hex
followed by a LF.  SQLite's BINARY collation on UTF-8 text coincides with
lexicographic comparison of the scalar-value sequences, which is `String`'s
order. -/
def compute_message_blobs_root_hash (db : Db) : String :=
  sha256HexBytes
    (((db.message_blobs.map (fun b => b.sha256)).insertionSort (fun a b => a ≤ b)).flatMap
      (fun s => utf8Bytes s ++ [10]))

/-- Embedding of `escape_json_string` (the chained `.replace` calls act
independently on each source character). -/
def escapeJsonChar (c : Char) : List Char :=
  if c = '\\' then ['\\', '\\']
  else if c = '"' then ['\\', '"']
  else if c = '\n' then ['\\', 'n']
  else if c = '\r' then ['\\', 'r']
  else if c = '\t' then ['\\', 't']
  else [c]

def escape_json_string (s : String) : String :=
  ⟨s.data.flatMap escapeJsonChar⟩

/-- The `format!` string of `create_sync_finished_event`. -/
def sync_finished_detail (status : String) (messages_imported messages_gone : Nat)
    (root_hash : String) (blob_count : Nat) : String :=
  "\x7b\"status\":\"" ++ escape_json_string status ++
  "\",\"messages_imported\":" ++ toString messages_imported ++
  ",\"messages_gone\":" ++ toString messages_gone ++
  ",\"root_hash\":\"" ++ root_hash ++
  "\",\"blob_count\":" ++ toString blob_count ++ "\x7d"

/-- Embedding of `Storage::create_sync_finished_event`: snapshot root hash and
blob count inside the transaction, then append the event. -/
def create_sync_finished_event (db : Db) (account_id : Nat) (status : String)
    (messages_imported messages_gone : Nat) (now : String) : Db :=
  let root_hash := compute_message_blobs_root_hash db
  let blob_count := count_message_blobs db
  (insert_event_tx db
    { occurred_at := now
      kind := EVENT_KIND_SYNC_FINISHED
      account_id := some account_id
      mailbox_id := none
      message_blob_id := none
      detail := sync_finished_detail status messages_imported messages_gone root_hash blob_count }).1

/-! ## Integrity engine -/

structure EventChainCheckResult where
  checked_events : Nat
  first_mismatch_event_id : Option Nat
deriving DecidableEq, Repr

/-- The `detail.unwrap_or_else(|| "\x7b\x7d".to_string())` coercion applied by
`verify_event_chain` when re-hashing a stored row: a SQL `NULL` becomes
`"\x7b\x7d"`; any stored string (the empty string included) is used as is. -/
def detail_for_hash (d : Option String) : String :=
  d.getD "\x7b\x7d"

def hash_input_of_row (e : EventRow) : InsertEventInput :=
  { occurred_at := e.occurred_at
    kind := e.kind
    account_id := e.account_id
    mailbox_id := e.mailbox_id
    message_blob_id := e.message_blob_id
    detail := detail_for_hash e.detail }

def verify_chain_walk (previous_hash : String) (checked : Nat) :
    List EventRow → EventChainCheckResult
  | [] => { checked_events := checked, first_mismatch_event_id := none }
  | e :: rest =>
    let checked := checked + 1
    if e.prev_hash ≠ previous_hash then
      { checked_events := checked, first_mismatch_event_id := some e.id }
    else
      let expected_hash := compute_event_hash e.prev_hash (hash_input_of_row e)
      if e.hash ≠ expected_hash then
        { checked_events := checked, first_mismatch_event_id := some e.id }
      else
        verify_chain_walk e.hash checked rest

/-- Embedding of `Storage::verify_event_chain`: walk all events in ascending
id order (`ORDER BY id ASC`), maintaining the running previous hash. -/
def verify_event_chain (db : Db) : EventChainCheckResult :=
  verify_chain_walk zeros64 0 (db.events.insertionSort (fun a b => a.id ≤ b.id))

/-! ### Checkpoint extraction

`last_sync_finished_checkpoint` parses the event detail with `serde_json` and
reads the `root_hash` / `blob_count` members.  The detail strings the program
emits are flat one-line objects whose only string values are the escaped
status and the 64-hex root hash, so member extraction by scanning for the
unique `"key":` occurrence is an exact model of `serde_json` on them;
unparExtractable inputs yield `None` exactly like the `unwrap_or(Null)` path. -/

def leadsWith : List Char → List Char → Bool
  | [], _ => true
  | _ :: _, [] => false
  | p :: ps, c :: cs => p == c && leadsWith ps cs

def findAfter (pat : List Char) : List Char → Option (List Char)
  | [] => if pat.isEmpty then some [] else none
  | c :: cs =>
    if leadsWith pat (c :: cs) then some (List.drop pat.length (c :: cs))
    else findAfter pat cs

def digitsToNat (ds : List Char) : Nat :=
  ds.foldl (fun acc c => acc * 10 + (c.toNat - 48)) 0

def extract_string_member (json : String) (key : String) : Option String :=
  match findAfter ("\"" ++ key ++ "\":\"").data json.data with
  | none => none
  | some rest =>
    let v := rest.takeWhile (fun c => c ≠ '"')
    if v.length == rest.length then none else some ⟨v⟩

def extract_nat_member (json : String) (key : String) : Option Nat :=
  match findAfter ("\"" ++ key ++ "\":").data json.data with
  | none => none
  | some rest =>
    let ds := rest.takeWhile (fun c => c.isDigit)
    if ds.isEmpty then none else some (digitsToNat ds)

def parse_checkpoint_detail (detail : String) : Option (String × Nat) :=
  match extract_string_member detail "root_hash", extract_nat_member detail "blob_count" with
  | some rh, some bc => some (rh, bc)
  | _, _ => none

/-- Embedding of `last_sync_finished_checkpoint`: detail of the newest
`sync_finished` event, parsed for `root_hash` and `blob_count`. -/
def last_sync_finished_checkpoint (db : Db) : Option (String × Nat) := do
  let e ← maxIdRow (db.events.filter (fun e => e.kind == EVENT_KIND_SYNC_FINISHED))
  let d ← e.detail
  parse_checkpoint_detail d

structure IntegrityStatus where
  ok : Bool := false
  chain_ok : Bool := false
  chain_checked_events : Nat := 0
  chain_first_mismatch_event_id : Option Nat := none
  root_hash_ok : Bool := false
  current_root_hash : String := ""
  current_blob_count : Nat := 0
  checkpoint_root_hash : Option String := none
  checkpoint_blob_count : Option Nat := none
  issues : List String := []
deriving DecidableEq, Repr

def root_hash_issue (checkpoint current : String) : String :=
  "Root hash mismatch: checkpoint=" ++ checkpoint ++ ", current=" ++ current

def blob_count_issue (checkpoint current : Nat) : String :=
  "Blob count mismatch: checkpoint=" ++ toString checkpoint ++ ", current=" ++ toString current

def chain_issue (event_id : Nat) : String :=
  "Event hash chain broken at event id " ++ toString event_id

/-- The root-hash-vs-checkpoint comparison shared by `verify_integrity` and
`verify_root_hash_only` (steps 2–3 of both functions). -/
def root_hash_check (db : Db) (status : IntegrityStatus) (issues : List String) :
    IntegrityStatus × List String :=
  let status := { status with
    current_root_hash := compute_message_blobs_root_hash db
    current_blob_count := count_message_blobs db }
  match last_sync_finished_checkpoint db with
  | some (root_hash, blob_count) =>
    let status := { status with
      checkpoint_root_hash := some root_hash
      checkpoint_blob_count := some blob_count }
    if root_hash ≠ status.current_root_hash then
      ({ status with root_hash_ok := false },
       issues ++ [root_hash_issue root_hash status.current_root_hash])
    else if blob_count ≠ status.current_blob_count then
      ({ status with root_hash_ok := false },
       issues ++ [blob_count_issue blob_count status.current_blob_count])
    else
      ({ status with root_hash_ok := true }, issues)
  | none =>
    ({ status with root_hash_ok := true }, issues)

/-- Embedding of `Storage::verify_integrity` (full check: chain + root hash). -/
def verify_integrity (db : Db) : IntegrityStatus :=
  let chain_result := verify_event_chain db
  let status : IntegrityStatus :=
    { chain_checked_events := chain_result.checked_events
      chain_first_mismatch_event_id := chain_result.first_mismatch_event_id
      chain_ok := chain_result.first_mismatch_event_id.isNone }
  let issues :=
    match chain_result.first_mismatch_event_id with
    | some event_id => [chain_issue event_id]
    | none => []
  let r := root_hash_check db status issues
  { r.1 with ok := r.1.chain_ok && r.1.root_hash_ok, issues := r.2 }

/-- Embedding of `Storage::verify_root_hash_only` (quick check):
chain verification is skipped and `chain_ok` is set to `true` up front. -/
def verify_root_hash_only (db : Db) : IntegrityStatus :=
  let status : IntegrityStatus := { chain_ok := true }
  let r := root_hash_check db status []
  { r.1 with ok := r.1.chain_ok && r.1.root_hash_ok, issues := r.2 }

/-! ## Delete prevention (schema v2 `BEFORE DELETE` triggers)

A SQLite `BEFORE DELETE ... RAISE(ABORT, msg)` trigger fires once per row the
statement would delete and aborts the whole statement, leaving the table
unchanged; a statement matching no rows succeeds and deletes nothing. -/

def DELETE_BLOBS_ERROR : String := "Deleting archived email blobs is not permitted."

def DELETE_EVENTS_ERROR : String := "Deleting events from the audit log is not permitted."

/-- `DELETE FROM message_blobs WHERE <pred>` under the
`prevent_delete_message_blobs` trigger of `apply_schema_v2`. -/
def delete_message_blobs (db : Db) (pred : MessageBlobRow → Bool) : Except String Db :=
  if db.message_blobs.any pred then .error DELETE_BLOBS_ERROR else .ok db

/-- `DELETE FROM events WHERE <pred>` under the `prevent_delete_events`
trigger of `apply_schema_v2`. -/
def delete_events (db : Db) (pred : EventRow → Bool) : Except String Db :=
  if db.events.any pred then .error DELETE_EVENTS_ERROR else .ok db

/-! ## Mailbox registry operations -/

def mailboxKeyMatches (account_id : Nat) (imap_name : String) (m : MailboxRow) : Bool :=
  m.account_id == account_id && m.imap_name == imap_name

/-- Embedding of `Storage::upsert_mailbox`: `INSERT ... ON CONFLICT(account_id,
imap_name) DO UPDATE SET delimiter, attributes, hard_excluded,
uidvalidity = coalesce(excluded.uidvalidity, uidvalidity), updated_at`
(`sync_enabled` and the cursor survive a conflict). -/
def upsert_mailbox (db : Db) (input : UpsertMailboxInput) (now : String) : Db × Nat :=
  match db.mailboxes.find? (mailboxKeyMatches input.account_id input.imap_name) with
  | some existing =>
    ({ db with
       mailboxes := db.mailboxes.map (fun m =>
         if mailboxKeyMatches input.account_id input.imap_name m then
           { m with
             delimiter := input.delimiter
             attributes := input.attributes
             hard_excluded := input.hard_excluded
             uidvalidity := input.uidvalidity.orElse (fun _ => m.uidvalidity)
             updated_at := now }
         else m) },
     existing.id)
  | none =>
    ({ db with
       mailboxes := db.mailboxes ++
         [{ id := db.next_mailbox_id
            account_id := input.account_id
            imap_name := input.imap_name
            delimiter := input.delimiter
            attributes := input.attributes
            sync_enabled := input.sync_enabled
            hard_excluded := input.hard_excluded
            uidvalidity := input.uidvalidity
            last_seen_uid := input.last_seen_uid
            last_sync_at := none
            last_error := none
            created_at := now
            updated_at := now }]
       next_mailbox_id := db.next_mailbox_id + 1 },
     db.next_mailbox_id)

/-- Embedding of `Storage::set_mailbox_sync_enabled`
(`UPDATE mailboxes SET sync_enabled = ?1, updated_at = ?2 WHERE id = ?3`). -/
def set_mailbox_sync_enabled (db : Db) (mailbox_id : Nat) (sync_enabled : Bool)
    (now : String) : Db :=
  { db with
    mailboxes := db.mailboxes.map (fun m =>
      if m.id == mailbox_id then { m with sync_enabled := sync_enabled, updated_at := now }
      else m) }

/-- The `SET` clause of `update_mailbox_cursor`. -/
def cursor_updated (uidvalidity : Option Nat) (last_seen_uid : Nat)
    (last_sync_at last_error : Option String) (now : String) (m : MailboxRow) : MailboxRow :=
  { m with
    uidvalidity := uidvalidity
    last_seen_uid := last_seen_uid
    last_sync_at := last_sync_at
    last_error := last_error
    updated_at := now }

/-- Embedding of `Storage::update_mailbox_cursor`. -/
def update_mailbox_cursor (db : Db) (mailbox_id : Nat) (uidvalidity : Option Nat)
    (last_seen_uid : Nat) (last_sync_at : Option String) (last_error : Option String)
    (now : String) : Db :=
  { db with
    mailboxes := db.mailboxes.map (fun m =>
      if m.id == mailbox_id then
        cursor_updated uidvalidity last_seen_uid last_sync_at last_error now m
      else m) }

def find_mailbox (db : Db) (mailbox_id : Nat) : Option MailboxRow :=
  db.mailboxes.find? (fun m => m.id == mailbox_id)

/-! ## Sync orchestration (`crates/adapters/src/sync.rs`,
`apps/desktop/src-tauri/src/app_commands.rs`) -/

/-- `sync_account_once_with_progress` computes the discovery-insert flag as
`let sync_enabled = !hard_excluded && auto_archive_new_folders;` where
`auto_archive_new_folders = account.mailbox_selection_mode == "auto"`. -/
def sync_discovery_sync_enabled (mailbox_selection_mode : String)
    (hard_excluded : Bool) : Bool :=
  !hard_excluded && (mailbox_selection_mode == "auto")

def MAILBOX_SELECTION_MODE_AUTO : String := "auto"

def DEFAULT_MANUAL_SYNC_ENABLED_INBOX : Bool := true

def asciiLower (c : Char) : Char :=
  if 'A' ≤ c && c ≤ 'Z' then Char.ofNat (c.toNat + 32) else c

/-- `str::eq_ignore_ascii_case`. -/
def eq_ignore_ascii_case (a b : String) : Bool :=
  a.data.map asciiLower == b.data.map asciiLower

/-- Embedding of `default_sync_enabled_for_mailbox` in `app_commands.rs`
(used by the account-creation discovery path). -/
def default_sync_enabled_for_mailbox (mailbox_selection_mode : String)
    (imap_name : String) (hard_excluded : Bool) : Bool :=
  if hard_excluded then false
  else if mailbox_selection_mode == MAILBOX_SELECTION_MODE_AUTO then true
  else if DEFAULT_MANUAL_SYNC_ENABLED_INBOX && eq_ignore_ascii_case imap_name "INBOX" then true
  else false

/-- Result of one `sync_mailbox` call, abstracting the IMAP session: the
ingests it performed before returning, and either success (with the final
cursor write it issued) or the error pair `(error_string, partial_max_uid)`.
On success `sync_mailbox` itself persists the cursor with `last_error = None`;
on failure the caller's error branch persists it. -/
inductive MailboxOutcome where
  | ok (ingests : List (InsertMessageBlobInput × IngestMessageLocationInput))
       (uidvalidity : Option Nat) (max_seen_uid : Nat)
  | err (ingests : List (InsertMessageBlobInput × IngestMessageLocationInput))
        (message : String) (partial_max_uid : Nat)

def apply_ingests (now : String) :
    Db → List (InsertMessageBlobInput × IngestMessageLocationInput) → Db
  | db, [] => db
  | db, (b, l) :: rest => apply_ingests now (ingest_message db b l now).1 rest

/-- One iteration of the per-mailbox loop in `sync_account_once_with_progress`
(lines 116–162): run the mailbox, and on `Err((err_string, partial_max_uid))`
persist the cursor as `max(partial_max_uid, mailbox.last_seen_uid)` with the
error recorded, then continue.  Returns the db and whether this mailbox
errored. -/
def run_mailbox_outcome (db : Db) (mb : MailboxRow) (oc : MailboxOutcome)
    (now : String) : Db × Bool :=
  match oc with
  | .ok ingests uidv max_seen =>
    (update_mailbox_cursor (apply_ingests now db ingests) mb.id uidv max_seen
      (some now) none now, false)
  | .err ingests err_string partial_max_uid =>
    let dbi := apply_ingests now db ingests
    let cursor_uid :=
      if partial_max_uid > mb.last_seen_uid then partial_max_uid else mb.last_seen_uid
    (update_mailbox_cursor dbi mb.id mb.uidvalidity cursor_uid (some now)
      (some err_string) now, true)

/-- The per-mailbox `for` loop: each mailbox is processed in order and the
`had_mailbox_errors` flag accumulates. -/
def sync_account_loop (db : Db) (pairs : List (MailboxRow × MailboxOutcome))
    (now : String) : Db × Bool :=
  match pairs with
  | [] => (db, false)
  | p :: rest =>
    let r := run_mailbox_outcome db p.1 p.2 now
    let tail := sync_account_loop r.1 rest now
    (tail.1, r.2 || tail.2)

def outcome_ingests : MailboxOutcome → List (InsertMessageBlobInput × IngestMessageLocationInput)
  | .ok ingests _ _ => ingests
  | .err ingests _ _ => ingests

def messages_ingested (pairs : List (MailboxRow × MailboxOutcome)) : Nat :=
  (pairs.map (fun p => (outcome_ingests p.2).length)).sum

/-- The tail of `sync_account_once_with_progress`: run every enabled mailbox
(collected in `pairs`), then emit exactly one `sync_finished` event whose
status is `"partial"` when any mailbox errored and `"ok"` otherwise. -/
def sync_account_once (db : Db) (account_id : Nat)
    (pairs : List (MailboxRow × MailboxOutcome)) (now : String) : Db :=
  let r := sync_account_loop db pairs now
  let status := if r.2 then "partial" else "ok"
  create_sync_finished_event r.1 account_id status (messages_ingested pairs) 0 now

/-! ## Spec-side formulations

These definitions follow the specification's words (§3 invariants 3–4, §4.1,
§6) rather than the source, so that the theorems below relate the two. -/

/-- §3 invariant 4, as written: `hash = SHA-256(prev_hash ‖ "\n" ‖ occurred_at
‖ "\n" ‖ kind ‖ "\n" ‖ account_id? ‖ "\n" ‖ mailbox_id? ‖ "\n" ‖
message_blob_id? ‖ "\n" ‖ detail)` encoded as lowercase hex, optional ids as
decimal ASCII or empty. -/
def event_hash_spec (prev : String) (i : InsertEventInput) : String :=
  sha256HexOfString
    (prev ++ "\n" ++ i.occurred_at ++ "\n" ++ i.kind ++ "\n" ++
     optIdStr i.account_id ++ "\n" ++ optIdStr i.mailbox_id ++ "\n" ++
     optIdStr i.message_blob_id ++ "\n" ++ i.detail)

/-- The chain condition of §3 invariants 3–4 along a run of events: each
event's `prev_hash` is the previous event's `hash` (`prev` for the first) and
each stored `hash` re-computes per the spec formula. -/
def chain_from_spec (prev : String) : List EventRow → Bool
  | [] => true
  | e :: rest =>
    (e.prev_hash == prev) &&
    (e.hash == event_hash_spec prev (hash_input_of_row e)) &&
    chain_from_spec e.hash rest

/-- The full-chain invariant: the first event links to 64 zero-hex chars. -/
def chain_ok_spec (events : List EventRow) : Bool :=
  chain_from_spec zeros64 events

/-- The hash that the next appended event must link to: the last event's
hash, or `prev` when the log is empty. -/
def thread_hash (prev : String) (l : List EventRow) : String :=
  ((l.getLast?).map (fun e => e.hash)).getD prev

/-- Well-formedness of the events table that SQLite guarantees: the list is
in strictly ascending rowid order and `AUTOINCREMENT` assigns fresh ids. -/
def EventsWf (db : Db) : Prop :=
  List.Pairwise (fun a b => a.id < b.id) db.events ∧
  ∀ e ∈ db.events, e.id < db.next_event_id

/-- Several appends within one transaction (or several transactions). -/
def insert_events_fold (db : Db) (inputs : List InsertEventInput) : Db :=
  inputs.foldl (fun d i => (insert_event_tx d i).1) db

def archived_event_count (db : Db) (blob_id : Nat) : Nat :=
  (db.events.filter
    (fun e => e.kind == EVENT_KIND_EMAIL_ARCHIVED && e.message_blob_id == some blob_id)).length

def count_events_of_kind (db : Db) (kind : String) : Nat :=
  (db.events.filter (fun e => e.kind == kind)).length

/-- §4.1/§6, as written: SHA-256 (lowercase hex) of the lexicographically
ascending sorted blob hexes, each followed by a LF. -/
def root_hash_spec_words (shas : List String) : String :=
  sha256HexOfString
    (String.join (((shas).insertionSort (fun a b => a ≤ b)).map (fun s => s ++ "\n")))

/-- The default-`sync_enabled` rule claimed for discovery inserts (§4.6
step 2): false if hard-excluded; else true in `auto` mode; else true exactly
for a mailbox named "INBOX" case-insensitively. -/
def claimed_default_sync_enabled (mode name : String) (hard_excluded : Bool) : Bool :=
  if hard_excluded then false
  else if mode == "auto" then true
  else eq_ignore_ascii_case name "INBOX"

def outcome_is_err : MailboxOutcome → Bool
  | .ok _ _ _ => false
  | .err _ _ _ => true

/-- The cursor state the claim requires for mailbox `mb` after the sync run,
given its outcome: on success the final `max_seen_uid` with `last_error`
cleared; on error `max(partial_max_uid, prior cursor)` with `last_error`
recorded. -/
def outcome_cursor_matches (m mb : MailboxRow) : MailboxOutcome → Prop
  | .ok _ uv mx => m.last_seen_uid = mx ∧ m.last_error = none ∧ m.uidvalidity = uv
  | .err _ msg pmax =>
    m.last_seen_uid = max pmax mb.last_seen_uid ∧ m.last_error = some msg ∧
    m.uidvalidity = mb.uidvalidity

/-! ## Concrete states used by counterexamples and witnesses -/

def emptyDb : Db :=
  { mailboxes := []
    message_blobs := []
    message_locations := []
    events := []
    next_mailbox_id := 1
    next_blob_id := 1
    next_location_id := 1
    next_event_id := 1 }

def sampleBlobInput : InsertMessageBlobInput :=
  { sha256 := sha256HexOfString "Subject: hi\r\n\r\nbody\r\n"
    stored_encoding := "raw"
    raw_mime := utf8Bytes "Subject: hi\r\n\r\nbody\r\n"
    raw_mime_size_bytes := 21
    stored_size_bytes := 21
    message_id := none
    date_header := none
    from_address := none
    to_addresses := none
    cc_addresses := none
    subject := some "hi"
    body_text := some "body"
    imported_at := "2024-01-01T00:00:00Z" }

def sampleLocationInput : IngestMessageLocationInput :=
  { account_id := 1
    mailbox_id := 1
    uidvalidity := 10
    uid := 1
    internal_date := none
    flags := none
    provider_message_id := none
    provider_thread_id := none
    provider_labels := none
    provider_meta_json := none
    first_seen_at := "2024-01-01T00:00:00Z"
    last_seen_at := "2024-01-01T00:00:00Z" }

def sampleEventInput : InsertEventInput :=
  { occurred_at := "2024-01-01T00:00:00Z"
    kind := "app_started"
    account_id := none
    mailbox_id := none
    message_blob_id := none
    detail := "\x7b\x7d" }

/-- A mailbox that the server reports as non-selectable (hard-excluded). -/
def excludedMailbox : MailboxRow :=
  { id := 1
    account_id := 1
    imap_name := "Restricted"
    delimiter := some "/"
    attributes := some "\\Noselect"
    sync_enabled := false
    hard_excluded := true
    uidvalidity := none
    last_seen_uid := 0
    last_sync_at := none
    last_error := none
    created_at := "2024-01-01T00:00:00Z"
    updated_at := "2024-01-01T00:00:00Z" }

def excludedMailboxDb : Db :=
  { emptyDb with mailboxes := [excludedMailbox], next_mailbox_id := 2 }

/-- An archive whose only event is a `sync_finished` checkpoint matching the
(empty) blob set but whose `prev_hash` is not the 64-zero genesis value: the
hash chain is broken while the root-hash comparison still succeeds. -/
def tamperedChainEvent : EventRow :=
  { id := 1
    occurred_at := "2024-01-01T00:00:00Z"
    kind := EVENT_KIND_SYNC_FINISHED
    account_id := some 1
    mailbox_id := none
    message_blob_id := none
    detail := some (sync_finished_detail "ok" 0 0 (compute_message_blobs_root_hash emptyDb) 0)
    prev_hash := ⟨List.replicate 64 '1'⟩
    hash := "0000000000000000000000000000000000000000000000000000000000000001" }

def tamperedChainDb : Db :=
  { emptyDb with events := [tamperedChainEvent], next_event_id := 2 }

/-- Two enabled mailboxes for the partial-failure sync scenario (S4). -/
def wMailbox1 : MailboxRow :=
  { id := 1
    account_id := 1
    imap_name := "INBOX"
    delimiter := some "/"
    attributes := some ""
    sync_enabled := true
    hard_excluded := false
    uidvalidity := some 10
    last_seen_uid := 4
    last_sync_at := none
    last_error := none
    created_at := "2024-01-01T00:00:00Z"
    updated_at := "2024-01-01T00:00:00Z" }

def wMailbox2 : MailboxRow :=
  { wMailbox1 with id := 2, imap_name := "Sent", last_seen_uid := 7 }

def syncScenarioDb : Db :=
  { emptyDb with mailboxes := [wMailbox1, wMailbox2], next_mailbox_id := 3 }

def syncScenarioPairs : List (MailboxRow × MailboxOutcome) :=
  [(wMailbox1, .ok [] (some 10) 6),
   (wMailbox2, .err [] "SELECT failed" 5)]

/-- A well-formed first event for concrete states (correctly chained to the
64-zero genesis value). -/
def appStartedEvent : EventRow :=
  new_event_row emptyDb sampleEventInput

def sampleBlobRow : MessageBlobRow :=
  { id := 1
    sha256 := sha256HexOfString "Subject: hi\r\n\r\nbody\r\n"
    stored_encoding := "raw"
    raw_mime := utf8Bytes "Subject: hi\r\n\r\nbody\r\n"
    raw_mime_size_bytes := 21
    stored_size_bytes := 21
    message_id := none
    date_header := none
    from_address := none
    to_addresses := none
    cc_addresses := none
    subject := some "hi"
    body_text := some "body"
    imported_at := "2024-01-01T00:00:00Z" }

def sampleBlobRow2 : MessageBlobRow :=
  { sampleBlobRow with
    id := 2
    sha256 := sha256HexOfString "Subject: re\r\n\r\nreply\r\n"
    raw_mime := utf8Bytes "Subject: re\r\n\r\nreply\r\n"
    raw_mime_size_bytes := 23
    stored_size_bytes := 23
    subject := some "re" }

/-- An archive holding one blob and one event. -/
def oneBlobDb : Db :=
  { emptyDb with
    message_blobs := [sampleBlobRow]
    events := [appStartedEvent]
    next_blob_id := 2
    next_event_id := 2 }

/-- Two archives holding the same two blobs in opposite insertion order. -/
def twoBlobDbA : Db :=
  { emptyDb with message_blobs := [sampleBlobRow, sampleBlobRow2], next_blob_id := 3 }

def twoBlobDbB : Db :=
  { emptyDb with
    message_blobs := [{ sampleBlobRow2 with id := 1 }, { sampleBlobRow with id := 2 }]
    next_blob_id := 3 }

/-! ## Helper lemmas -/

theorem utf8Bytes_append (s t : String) :
    utf8Bytes (s ++ t) = utf8Bytes s ++ utf8Bytes t := by
  simp [utf8Bytes, String.data_append]

theorem utf8Bytes_newline : utf8Bytes "\n" = [10] := rfl

/-- The field-by-field hasher updates of `compute_event_hash` hash exactly the
spec's LF-separated concatenation. -/
theorem compute_event_hash_eq_spec (prev : String) (i : InsertEventInput) :
    compute_event_hash prev i = event_hash_spec prev i := by
  simp [compute_event_hash, event_hash_spec, sha256HexOfString, utf8Bytes_append,
    utf8Bytes_newline, List.append_assoc]

theorem maxIdStep_cases (acc : Option EventRow) (e : EventRow) :
    maxIdStep acc e = acc ∨ maxIdStep acc e = some e := by
  match acc with
  | none => exact Or.inr rfl
  | some a =>
    by_cases h : a.id < e.id
    · exact Or.inr (by simp [maxIdStep, h])
    · exact Or.inl (by simp [maxIdStep, h])

theorem foldl_maxId_acc (l : List EventRow) :
    ∀ acc : Option EventRow,
      List.foldl maxIdStep acc l = acc ∨ ∃ a ∈ l, List.foldl maxIdStep acc l = some a := by
  induction l with
  | nil => intro acc; exact Or.inl rfl
  | cons x l ih =>
    intro acc
    have hfold : List.foldl maxIdStep acc (x :: l) = List.foldl maxIdStep (maxIdStep acc x) l :=
      rfl
    rcases ih (maxIdStep acc x) with h | ⟨a, ha, h⟩
    · rcases maxIdStep_cases acc x with hs | hs
      · exact Or.inl (by rw [hfold, h, hs])
      · exact Or.inr ⟨x, List.mem_cons_self x l, by rw [hfold, h, hs]⟩
    · exact Or.inr ⟨a, List.mem_cons_of_mem x ha, by rw [hfold, h]⟩

theorem maxIdRow_concat (l : List EventRow) (x : EventRow)
    (h : ∀ e ∈ l, e.id < x.id) : maxIdRow (l ++ [x]) = some x := by
  unfold maxIdRow
  rw [List.foldl_append]
  rcases foldl_maxId_acc l none with hl | ⟨a, ha, hl⟩
  · rw [hl]; rfl
  · rw [hl]
    simp [maxIdStep, h a ha]

theorem thread_hash_cons (p : String) (x : EventRow) (l : List EventRow) :
    thread_hash p (x :: l) = thread_hash x.hash l := by
  cases l with
  | nil => simp [thread_hash]
  | cons h t =>
    simp only [thread_hash, List.getLast?_cons_cons]
    cases heq : (h :: t).getLast? with
    | none => exact absurd (List.getLast?_eq_none_iff.mp heq) (by simp)
    | some a => simp

/-- Under the rowid ordering guaranteed by SQLite, `ORDER BY id DESC LIMIT 1`
returns the row the next event must link to. -/
theorem last_event_hash_eq_thread (db : Db) (hwf : EventsWf db) :
    (last_event_hash db).getD zeros64 = thread_hash zeros64 db.events := by
  rcases List.eq_nil_or_concat db.events with hnil | ⟨l, x, hl⟩
  · simp [last_event_hash, hnil, maxIdRow, thread_hash]
  · rw [List.concat_eq_append] at hl
    have hbound : ∀ e ∈ l, e.id < x.id := by
      have := hwf.1
      rw [hl, List.pairwise_append] at this
      intro e he
      exact this.2.2 e he x (List.mem_singleton_self x)
    simp [last_event_hash, hl, maxIdRow_concat l x hbound, thread_hash]

theorem chain_from_spec_concat (p : String) (l : List EventRow) (e : EventRow) :
    chain_from_spec p (l ++ [e]) =
      (chain_from_spec p l &&
       ((e.prev_hash == thread_hash p l) &&
        (e.hash == event_hash_spec (thread_hash p l) (hash_input_of_row e)))) := by
  induction l generalizing p with
  | nil => simp [chain_from_spec, thread_hash, Bool.and_assoc]
  | cons x l ih =>
    simp [chain_from_spec, ih, thread_hash_cons, Bool.and_assoc]

theorem hash_input_of_new_row (db : Db) (i : InsertEventInput) :
    hash_input_of_row (new_event_row db i) = i := by
  simp [hash_input_of_row, new_event_row, detail_for_hash]

/-- One `insert_event_tx` keeps the events table well formed and extends the
spec-level hash chain. -/
theorem insert_event_tx_preserves (db : Db) (i : InsertEventInput)
    (hwf : EventsWf db) (hch : chain_ok_spec db.events = true) :
    EventsWf (insert_event_tx db i).1 ∧
      chain_ok_spec (insert_event_tx db i).1.events = true := by
  constructor
  · constructor
    · simp only [insert_event_tx, List.pairwise_append]
      refine ⟨hwf.1, List.pairwise_singleton _ _, ?_⟩
      intro a ha b hb
      rw [List.mem_singleton] at hb
      subst hb
      simpa [new_event_row] using hwf.2 a ha
    · intro e he
      simp only [insert_event_tx, List.mem_append, List.mem_singleton] at he
      rcases he with he | he
      · exact Nat.lt_succ_of_lt (hwf.2 e he)
      · subst he; simp [new_event_row, insert_event_tx]
  · have hrow_prev : (new_event_row db i).prev_hash = thread_hash zeros64 db.events := by
      simp [new_event_row, last_event_hash_eq_thread db hwf]
    have hrow_hash :
        (new_event_row db i).hash =
          event_hash_spec (thread_hash zeros64 db.events) (hash_input_of_row (new_event_row db i)) := by
      simp [new_event_row, compute_event_hash_eq_spec,
        last_event_hash_eq_thread db hwf, hash_input_of_row, detail_for_hash]
    simp only [insert_event_tx, chain_ok_spec] at *
    rw [chain_from_spec_concat, hch, hrow_prev, hrow_hash]
    simp

/-! ## Claim theorems -/

/-- C1: every event appended by `insert_event_tx` stores
`hash = SHA-256(prev_hash ‖ LF ‖ occurred_at ‖ LF ‖ kind ‖ LF ‖ account_id? ‖
LF ‖ mailbox_id? ‖ LF ‖ message_blob_id? ‖ LF ‖ detail)` in lowercase hex,
links `prev_hash` to the previous event's hash (64 zero-hex chars for the
first event), and any sequence of appends — several inside one transaction
included — preserves this chain invariant. -/
theorem event_chain_preserved (db : Db) (inputs : List InsertEventInput)
    (hwf : EventsWf db) (hch : chain_ok_spec db.events = true) :
    EventsWf (insert_events_fold db inputs) ∧
      chain_ok_spec (insert_events_fold db inputs).events = true := by
  induction inputs generalizing db with
  | nil => exact ⟨hwf, hch⟩
  | cons i rest ih =>
    have hstep := insert_event_tx_preserves db i hwf hch
    have : insert_events_fold db (i :: rest) =
        insert_events_fold (insert_event_tx db i).1 rest := rfl
    rw [this]
    exact ih _ hstep.1 hstep.2

/-- C1 witness: appending two concrete events to the empty archive keeps the
chain invariant. -/
theorem event_chain_preserved_witness :
    (EventsWf emptyDb ∧ chain_ok_spec emptyDb.events = true) ∧
      chain_ok_spec (insert_events_fold emptyDb [sampleEventInput, sampleEventInput]).events
        = true := by
  refine ⟨⟨⟨by decide, by decide⟩, by decide⟩, ?_⟩
  exact (event_chain_preserved emptyDb [sampleEventInput, sampleEventInput]
    ⟨by decide, by decide⟩ (by decide)).2

theorem upsert_loc_blobs (db : Db) (inp : UpsertMessageLocationInput) :
    (upsert_message_location_tx db inp).message_blobs = db.message_blobs := by
  unfold upsert_message_location_tx
  split <;> rfl

theorem upsert_loc_events (db : Db) (inp : UpsertMessageLocationInput) :
    (upsert_message_location_tx db inp).events = db.events := by
  unfold upsert_message_location_tx
  split <;> rfl

theorem upsert_loc_mailboxes (db : Db) (inp : UpsertMessageLocationInput) :
    (upsert_message_location_tx db inp).mailboxes = db.mailboxes := by
  unfold upsert_message_location_tx
  split <;> rfl

theorem insert_event_blobs (db : Db) (i : InsertEventInput) :
    (insert_event_tx db i).1.message_blobs = db.message_blobs := rfl

theorem insert_event_mailboxes (db : Db) (i : InsertEventInput) :
    (insert_event_tx db i).1.mailboxes = db.mailboxes := rfl

theorem insert_event_events (db : Db) (i : InsertEventInput) :
    (insert_event_tx db i).1.events = db.events ++ [new_event_row db i] := rfl

theorem root_hash_congr (db1 db2 : Db)
    (h : db1.message_blobs = db2.message_blobs) :
    compute_message_blobs_root_hash db1 = compute_message_blobs_root_hash db2 := by
  simp [compute_message_blobs_root_hash, h]

theorem count_blobs_congr (db1 db2 : Db)
    (h : db1.message_blobs = db2.message_blobs) :
    count_message_blobs db1 = count_message_blobs db2 := by
  simp [count_message_blobs, h]

theorem string_join_cons (a : String) (t : List String) :
    String.join (a :: t) = a ++ String.join t := by
  apply String.ext
  simp [String.join_eq, String.data_append]

theorem utf8Bytes_join_lf (l : List String) :
    utf8Bytes (String.join (l.map (fun s => s ++ "\n"))) =
      l.flatMap (fun s => utf8Bytes s ++ [10]) := by
  induction l with
  | nil => rfl
  | cons x t ih =>
    rw [List.map_cons, string_join_cons, utf8Bytes_append, utf8Bytes_append, ih]
    simp [utf8Bytes_newline]

/-- C3: `create_sync_finished_event` leaves the blob table unchanged and
appends one `sync_finished` event whose detail embeds exactly the blob root
hash and blob count of the archive state at commit time — so immediately
after the sync cycle the current root hash and blob count equal the values
carried by the event. -/
theorem sync_finished_checkpoint_matches_state (db : Db) (account_id : Nat)
    (status : String) (imported gone : Nat) (now : String) :
    (create_sync_finished_event db account_id status imported gone now).message_blobs
        = db.message_blobs ∧
    ∃ e : EventRow,
      (create_sync_finished_event db account_id status imported gone now).events
          = db.events ++ [e] ∧
      e.kind = EVENT_KIND_SYNC_FINISHED ∧
      e.detail = some (sync_finished_detail status imported gone
        (compute_message_blobs_root_hash
          (create_sync_finished_event db account_id status imported gone now))
        (count_message_blobs
          (create_sync_finished_event db account_id status imported gone now))) := by
  have hblobs : (create_sync_finished_event db account_id status imported gone now).message_blobs
      = db.message_blobs := rfl
  refine ⟨hblobs, ?_⟩
  refine ⟨_, rfl, rfl, ?_⟩
  rw [root_hash_congr _ db hblobs, count_blobs_congr _ db hblobs]
  rfl

/-- C4: with the `BEFORE DELETE RAISE(ABORT)` triggers of schema v2 in place,
any `DELETE` statement that would remove an existing message-blob row or
event row fails with the trigger's error and leaves the table unchanged. -/
theorem delete_blob_or_event_rejected (db : Db)
    (predB : MessageBlobRow → Bool) (predE : EventRow → Bool)
    (b : MessageBlobRow) (e : EventRow)
    (hb : b ∈ db.message_blobs) (hpb : predB b = true)
    (he : e ∈ db.events) (hpe : predE e = true) :
    delete_message_blobs db predB = Except.error DELETE_BLOBS_ERROR ∧
    delete_events db predE = Except.error DELETE_EVENTS_ERROR := by
  constructor
  · unfold delete_message_blobs
    rw [if_pos (List.any_eq_true.mpr ⟨b, hb, hpb⟩)]
  · unfold delete_events
    rw [if_pos (List.any_eq_true.mpr ⟨e, he, hpe⟩)]

/-- C4 witness: deleting the only blob row / the only event row of a concrete
archive is rejected. -/
theorem delete_blob_or_event_rejected_witness :
    (sampleBlobRow ∈ oneBlobDb.message_blobs ∧ appStartedEvent ∈ oneBlobDb.events) ∧
    delete_message_blobs oneBlobDb (fun _ => true) = Except.error DELETE_BLOBS_ERROR ∧
    delete_events oneBlobDb (fun _ => true) = Except.error DELETE_EVENTS_ERROR :=
  ⟨⟨by decide, by decide⟩,
   delete_blob_or_event_rejected oneBlobDb (fun _ => true) (fun _ => true)
     sampleBlobRow appStartedEvent (by decide) rfl (by decide) rfl⟩

/-- C5: the blob root hash equals the lowercase-hex SHA-256 of the
lexicographically ascending sorted blob hexes, each followed by a LF (per
§4.1/§6, the zero-blob case hashing the empty byte string), and it is
deterministic: archives whose blob hex multisets agree — whatever the
insertion order — have equal root hashes. -/
theorem root_hash_spec_and_deterministic (db : Db) :
    compute_message_blobs_root_hash db =
      root_hash_spec_words (db.message_blobs.map (fun b => b.sha256)) ∧
    ∀ db2 : Db,
      (db.message_blobs.map (fun b => b.sha256)).Perm
        (db2.message_blobs.map (fun b => b.sha256)) →
      compute_message_blobs_root_hash db = compute_message_blobs_root_hash db2 := by
  constructor
  · unfold compute_message_blobs_root_hash root_hash_spec_words sha256HexOfString
    rw [utf8Bytes_join_lf]
  · intro db2 hperm
    have hsort :
        (db.message_blobs.map (fun b => b.sha256)).insertionSort (fun a b => a ≤ b) =
          (db2.message_blobs.map (fun b => b.sha256)).insertionSort (fun a b => a ≤ b) := by
      refine List.eq_of_perm_of_sorted ?_
        (List.sorted_insertionSort _ _) (List.sorted_insertionSort _ _)
      exact ((List.perm_insertionSort _ _).trans hperm).trans
        (List.perm_insertionSort _ _).symm
    unfold compute_message_blobs_root_hash
    rw [hsort]

/-- C5 witness: two concrete archives holding the same two blobs in opposite
insertion order have the same root hash. -/
theorem root_hash_deterministic_witness :
    (twoBlobDbA.message_blobs.map (fun b => b.sha256)).Perm
      (twoBlobDbB.message_blobs.map (fun b => b.sha256)) ∧
    compute_message_blobs_root_hash twoBlobDbA = compute_message_blobs_root_hash twoBlobDbB :=
  ⟨by decide,
   (root_hash_spec_and_deterministic twoBlobDbA).2 twoBlobDbB (by decide)⟩

/-- C6 counterexample: chain verification does not normalize an
empty-string detail to "\x7b\x7d" — `unwrap_or` only replaces `NULL`; the
claim that both `NULL` and `""` normalize to "\x7b\x7d" is false. -/
theorem detail_normalization_claim_refuted :
    ¬ (detail_for_hash none = "\x7b\x7d" ∧ detail_for_hash (some "") = "\x7b\x7d") := by
  decide

/-- C6 amended: during chain verification only a `NULL` detail is normalized
to "\x7b\x7d" before hashing — a row with `NULL` detail re-hashes exactly like
one storing "\x7b\x7d" — while a stored empty-string detail is hashed as the empty
string; stored detail values themselves are never modified (verification is
read-only in the embedding). -/
theorem detail_normalization_null_only (e : EventRow) (prev : String) :
    detail_for_hash none = "\x7b\x7d" ∧
    detail_for_hash (some "") = "" ∧
    compute_event_hash prev (hash_input_of_row { e with detail := none }) =
      compute_event_hash prev (hash_input_of_row { e with detail := some "\x7b\x7d" }) ∧
    compute_event_hash prev (hash_input_of_row { e with detail := some "" }) =
      compute_event_hash prev
        { occurred_at := e.occurred_at, kind := e.kind, account_id := e.account_id,
          mailbox_id := e.mailbox_id, message_blob_id := e.message_blob_id, detail := "" } := by
  exact ⟨rfl, rfl, rfl, rfl⟩

/-- C7 counterexample: a mailbox named "INBOX" discovered during sync under
`manual` selection mode is inserted with `sync_enabled = false` — the
sync-discovery path has no INBOX special case, contradicting the claimed
default rule (which would give `true`). -/
theorem sync_discovery_inbox_default_refuted :
    claimed_default_sync_enabled "manual" "INBOX" false = true ∧
    sync_discovery_sync_enabled "manual" false = false ∧
    ((upsert_mailbox emptyDb
        { account_id := 1
          imap_name := "INBOX"
          delimiter := some "/"
          attributes := some ""
          sync_enabled := sync_discovery_sync_enabled "manual" false
          hard_excluded := false
          uidvalidity := none
          last_seen_uid := 0 } "2024-01-01T00:00:00Z").1.mailboxes.map
      (fun m => m.sync_enabled)) = [false] := by
  decide

/-- C7 amended: the sync-discovery insert flag is
`!hard_excluded && (selection mode == "auto")` with no INBOX case; the
claimed rule (false when hard-excluded, else true in auto mode, else true
exactly for "INBOX" case-insensitively) is implemented only by
`default_sync_enabled_for_mailbox`, the account-creation discovery path. -/
theorem discovery_sync_enabled_rules (mode name : String) (hx : Bool) :
    sync_discovery_sync_enabled mode hx = (!hx && (mode == "auto")) ∧
    default_sync_enabled_for_mailbox mode name hx =
      claimed_default_sync_enabled mode name hx := by
  refine ⟨rfl, ?_⟩
  unfold default_sync_enabled_for_mailbox claimed_default_sync_enabled
    MAILBOX_SELECTION_MODE_AUTO DEFAULT_MANUAL_SYNC_ENABLED_INBOX
  cases hx with
  | true => simp
  | false =>
    by_cases hm : mode == "auto"
    · simp [hm]
    · simp only [hm, Bool.false_eq_true, if_false, if_true, Bool.true_and]
      cases eq_ignore_ascii_case name "INBOX" <;> simp

/-- C8 counterexample: `set_mailbox_sync_enabled` has no `hard_excluded`
guard; toggling a hard-excluded mailbox to enabled produces a row with
`hard_excluded = true ∧ sync_enabled = true`, so the storage layer does not
preserve the claimed invariant. -/
theorem hard_excluded_invariant_refuted :
    excludedMailbox.hard_excluded = true ∧
    ((set_mailbox_sync_enabled excludedMailboxDb 1 true "2024-01-02T00:00:00Z").mailboxes.map
      (fun m => (m.hard_excluded, m.sync_enabled))) = [(true, true)] := by
  decide

/-- C8 amended: both discovery paths insert hard-excluded mailboxes with
`sync_enabled = false`, so the invariant holds for rows as initially
inserted; but `set_mailbox_sync_enabled` writes `sync_enabled`
unconditionally (it never consults or changes `hard_excluded`), so the
invariant is not preserved by the toggle (nor by the conflict path of
`upsert_mailbox`, which refreshes `hard_excluded` while keeping
`sync_enabled`). -/
theorem hard_excluded_initial_inserts_only (mode name : String) (db : Db)
    (mailbox_id : Nat) (v : Bool) (now : String) :
    sync_discovery_sync_enabled mode true = false ∧
    default_sync_enabled_for_mailbox mode name true = false ∧
    (set_mailbox_sync_enabled db mailbox_id v now).mailboxes.map
        (fun m => (m.id, m.hard_excluded)) =
      db.mailboxes.map (fun m => (m.id, m.hard_excluded)) := by
  refine ⟨rfl, rfl, ?_⟩
  unfold set_mailbox_sync_enabled
  rw [List.map_map]
  refine List.map_congr_left ?_
  intro m _
  simp only [Function.comp_apply]
  split <;> simp

/-- C10: the quick integrity check sets `chain_ok = true` without walking the
event chain, for every archive state; on a concrete archive whose chain is
broken but whose blob set still matches the latest `sync_finished`
checkpoint, the quick check reports `ok = true` while the full verification
reports `ok = false` (chain mismatch at event 1). -/
theorem quick_check_skips_chain_verification :
    (∀ db : Db, (verify_root_hash_only db).chain_ok = true) ∧
    (verify_root_hash_only tamperedChainDb).ok = true ∧
    (verify_integrity tamperedChainDb).ok = false ∧
    (verify_integrity tamperedChainDb).chain_first_mismatch_event_id = some 1 := by
  refine ⟨?_, by decide, by decide, by decide⟩
  intro db
  unfold verify_root_hash_only root_hash_check
  cases h : last_sync_finished_checkpoint db with
  | none => simp [h]
  | some c => rcases c with ⟨rh, bc⟩; simp [h]; split_ifs <;> rfl

theorem blobWithSha_congr (db1 db2 : Db) (s : String)
    (h : db1.message_blobs = db2.message_blobs) :
    blobWithSha db1 s = blobWithSha db2 s := by
  simp [blobWithSha, h]

theorem mbid_congr (db1 db2 : Db) (s : String)
    (h : db1.message_blobs = db2.message_blobs) :
    message_blob_id_by_sha256_tx db1 s = message_blob_id_by_sha256_tx db2 s := by
  simp [message_blob_id_by_sha256_tx, h]

theorem blobWithSha_false_find (db : Db) (s : String) (h : blobWithSha db s = false) :
    db.message_blobs.find? (fun x => x.sha256 == s) = none := by
  rw [List.find?_eq_none]
  intro x hx
  exact (List.any_eq_false.mp h) x hx

/-- Facts about `ingest_message` when a blob with the same `sha256` already
exists: the blob table and audit log are untouched and the existing id is
returned. -/
theorem ingest_present_facts (db : Db) (b : InsertMessageBlobInput)
    (l : IngestMessageLocationInput) (t : String)
    (h : blobWithSha db b.sha256 = true) :
    (ingest_message db b l t).1.message_blobs = db.message_blobs ∧
    (ingest_message db b l t).1.events = db.events ∧
    (ingest_message db b l t).2 = (message_blob_id_by_sha256_tx db b.sha256).getD 0 := by
  unfold ingest_message
  simp [h, upsert_loc_events, upsert_loc_blobs]

/-- Full characterization of `ingest_message` when no blob with this
`sha256` exists yet. -/
theorem ingest_message_absent_eq (db : Db) (b : InsertMessageBlobInput)
    (l : IngestMessageLocationInput) (t : String)
    (h : blobWithSha db b.sha256 = false) :
    ingest_message db b l t =
      ((insert_event_tx
          (upsert_message_location_tx
            { db with
              message_blobs := db.message_blobs ++ [new_blob_row db b]
              next_blob_id := db.next_blob_id + 1 }
            { message_blob_id := db.next_blob_id
              account_id := l.account_id
              mailbox_id := l.mailbox_id
              uidvalidity := l.uidvalidity
              uid := l.uid
              internal_date := l.internal_date
              flags := l.flags
              provider_message_id := l.provider_message_id
              provider_thread_id := l.provider_thread_id
              provider_labels := l.provider_labels
              provider_meta_json := l.provider_meta_json
              first_seen_at := l.first_seen_at
              last_seen_at := l.last_seen_at })
          { occurred_at := t
            kind := EVENT_KIND_EMAIL_ARCHIVED
            account_id := some l.account_id
            mailbox_id := some l.mailbox_id
            message_blob_id := some db.next_blob_id
            detail := email_archived_detail b.sha256 }).1,
       db.next_blob_id) := by
  have hid :
      (message_blob_id_by_sha256_tx
        { db with
          message_blobs := db.message_blobs ++ [new_blob_row db b]
          next_blob_id := db.next_blob_id + 1 } b.sha256).getD 0 = db.next_blob_id := by
    simp [message_blob_id_by_sha256_tx, List.find?_append,
      blobWithSha_false_find db b.sha256 h, new_blob_row]
  unfold ingest_message
  simp only [h, Bool.not_false, if_true]
  rw [hid]

/-- Facts about `ingest_message` when no blob with this `sha256` exists: the
new blob row and one `email_archived` event referencing it are inserted in
the same transaction, and the fresh id is returned. -/
theorem ingest_absent_facts (db : Db) (b : InsertMessageBlobInput)
    (l : IngestMessageLocationInput) (t : String)
    (h : blobWithSha db b.sha256 = false) :
    (ingest_message db b l t).1.message_blobs = db.message_blobs ++ [new_blob_row db b] ∧
    (ingest_message db b l t).2 = db.next_blob_id ∧
    message_blob_id_by_sha256_tx (ingest_message db b l t).1 b.sha256 = some db.next_blob_id ∧
    ∃ e : EventRow,
      (ingest_message db b l t).1.events = db.events ++ [e] ∧
      e.kind = EVENT_KIND_EMAIL_ARCHIVED ∧
      e.message_blob_id = some db.next_blob_id := by
  have hfindNone := blobWithSha_false_find db b.sha256 h
  rw [ingest_message_absent_eq db b l t h]
  refine ⟨?_, rfl, ?_, ?_⟩
  · rw [insert_event_blobs, upsert_loc_blobs]
  · rw [mbid_congr _
      { db with
        message_blobs := db.message_blobs ++ [new_blob_row db b]
        next_blob_id := db.next_blob_id + 1 } _
      (by rw [insert_event_blobs, upsert_loc_blobs])]
    simp [message_blob_id_by_sha256_tx, List.find?_append, hfindNone, new_blob_row]
  · refine ⟨new_event_row
      (upsert_message_location_tx
        { db with
          message_blobs := db.message_blobs ++ [new_blob_row db b]
          next_blob_id := db.next_blob_id + 1 }
        { message_blob_id := db.next_blob_id
          account_id := l.account_id
          mailbox_id := l.mailbox_id
          uidvalidity := l.uidvalidity
          uid := l.uid
          internal_date := l.internal_date
          flags := l.flags
          provider_message_id := l.provider_message_id
          provider_thread_id := l.provider_thread_id
          provider_labels := l.provider_labels
          provider_meta_json := l.provider_meta_json
          first_seen_at := l.first_seen_at
          last_seen_at := l.last_seen_at })
      { occurred_at := t
        kind := EVENT_KIND_EMAIL_ARCHIVED
        account_id := some l.account_id
        mailbox_id := some l.mailbox_id
        message_blob_id := some db.next_blob_id
        detail := email_archived_detail b.sha256 }, ?_, rfl, rfl⟩
    rw [insert_event_events, upsert_loc_events]

/-- C2: ingesting the same raw bytes (same `sha256`) twice yields the same
blob id, creates at most one blob row, and appends exactly one
`email_archived` event referencing that blob — inside the first ingest's
transaction, and only when the blob row is newly created; the second ingest
appends no event at all. -/
theorem ingest_message_idempotent (db : Db) (b : InsertMessageBlobInput)
    (l1 l2 : IngestMessageLocationInput) (t1 t2 : String) :
    (ingest_message (ingest_message db b l1 t1).1 b l2 t2).2 =
      (ingest_message db b l1 t1).2 ∧
    (ingest_message db b l1 t1).1.message_blobs.length ≤ db.message_blobs.length + 1 ∧
    (ingest_message (ingest_message db b l1 t1).1 b l2 t2).1.message_blobs.length =
      (ingest_message db b l1 t1).1.message_blobs.length ∧
    (ingest_message (ingest_message db b l1 t1).1 b l2 t2).1.events =
      (ingest_message db b l1 t1).1.events ∧
    (blobWithSha db b.sha256 = false →
      ∃ e : EventRow,
        (ingest_message db b l1 t1).1.events = db.events ++ [e] ∧
        e.kind = EVENT_KIND_EMAIL_ARCHIVED ∧
        e.message_blob_id = some (ingest_message db b l1 t1).2 ∧
        archived_event_count (ingest_message (ingest_message db b l1 t1).1 b l2 t2).1
            (ingest_message db b l1 t1).2 =
          archived_event_count db (ingest_message db b l1 t1).2 + 1) ∧
    (blobWithSha db b.sha256 = true →
      (ingest_message db b l1 t1).1.events = db.events ∧
      (ingest_message db b l1 t1).1.message_blobs = db.message_blobs) := by
  by_cases hA : blobWithSha db b.sha256 = true
  · obtain ⟨hb1, he1, hi1⟩ := ingest_present_facts db b l1 t1 hA
    have hA2 : blobWithSha (ingest_message db b l1 t1).1 b.sha256 = true := by
      rw [blobWithSha_congr _ db _ hb1]; exact hA
    obtain ⟨hb2, he2, hi2⟩ := ingest_present_facts (ingest_message db b l1 t1).1 b l2 t2 hA2
    refine ⟨?_, ?_, ?_, ?_, ?_, fun _ => ⟨he1, hb1⟩⟩
    · rw [hi2, hi1, mbid_congr _ db _ hb1]
    · rw [hb1]; omega
    · rw [hb2]
    · rw [he2]
    · intro hfalse; rw [hA] at hfalse; cases hfalse
  · have hA' : blobWithSha db b.sha256 = false := by
      cases h : blobWithSha db b.sha256
      · rfl
      · exact absurd h hA
    obtain ⟨hb1, hi1, hmb1, e, he1, hek, heb⟩ := ingest_absent_facts db b l1 t1 hA'
    have hA2 : blobWithSha (ingest_message db b l1 t1).1 b.sha256 = true := by
      rw [blobWithSha_congr _ { db with
            message_blobs := db.message_blobs ++ [new_blob_row db b] } _ (by rw [hb1])]
      simp [blobWithSha, new_blob_row]
    obtain ⟨hb2, he2, hi2⟩ := ingest_present_facts (ingest_message db b l1 t1).1 b l2 t2 hA2
    refine ⟨?_, ?_, ?_, ?_, ?_, ?_⟩
    · rw [hi2, hmb1, hi1]; rfl
    · rw [hb1]; simp
    · rw [hb2]
    · rw [he2]
    · intro _
      refine ⟨e, he1, hek, by rw [hi1]; exact heb, ?_⟩
      have hcongr :
          archived_event_count (ingest_message (ingest_message db b l1 t1).1 b l2 t2).1
              (ingest_message db b l1 t1).2 =
            archived_event_count (ingest_message db b l1 t1).1
              (ingest_message db b l1 t1).2 := by
        unfold archived_event_count
        rw [he2]
      rw [hcongr]
      unfold archived_event_count
      rw [he1, List.filter_append, hi1, List.length_append]
      simp [hek, heb]
    · intro htrue; rw [hA'] at htrue; cases htrue

theorem find_mailbox_congr (db1 db2 : Db) (i : Nat)
    (h : db1.mailboxes = db2.mailboxes) :
    find_mailbox db1 i = find_mailbox db2 i := by
  simp [find_mailbox, h]

theorem count_events_congr (db1 db2 : Db) (k : String)
    (h : db1.events = db2.events) :
    count_events_of_kind db1 k = count_events_of_kind db2 k := by
  simp [count_events_of_kind, h]

theorem ingest_mailboxes (db : Db) (b : InsertMessageBlobInput)
    (l : IngestMessageLocationInput) (t : String) :
    (ingest_message db b l t).1.mailboxes = db.mailboxes := by
  by_cases h : blobWithSha db b.sha256 = true
  · unfold ingest_message
    simp [h, upsert_loc_mailboxes]
  · have h' : blobWithSha db b.sha256 = false := by
      cases hc : blobWithSha db b.sha256
      · rfl
      · exact absurd hc h
    rw [ingest_message_absent_eq db b l t h', insert_event_mailboxes, upsert_loc_mailboxes]

theorem apply_ingests_mailboxes (now : String) (ing : List (InsertMessageBlobInput × IngestMessageLocationInput)) (db : Db) :
    (apply_ingests now db ing).mailboxes = db.mailboxes := by
  induction ing generalizing db with
  | nil => rfl
  | cons p rest ih =>
    rcases p with ⟨b, l⟩
    rw [apply_ingests, ih, ingest_mailboxes]

theorem ingest_sync_count (db : Db) (b : InsertMessageBlobInput)
    (l : IngestMessageLocationInput) (t : String) :
    count_events_of_kind (ingest_message db b l t).1 EVENT_KIND_SYNC_FINISHED =
      count_events_of_kind db EVENT_KIND_SYNC_FINISHED := by
  by_cases h : blobWithSha db b.sha256 = true
  · exact count_events_congr _ _ _ (ingest_present_facts db b l t h).2.1
  · have h' : blobWithSha db b.sha256 = false := by
      cases hc : blobWithSha db b.sha256
      · rfl
      · exact absurd hc h
    obtain ⟨-, -, -, e, he, hek, -⟩ := ingest_absent_facts db b l t h'
    unfold count_events_of_kind
    rw [he, List.filter_append, List.length_append]
    simp [hek, EVENT_KIND_EMAIL_ARCHIVED, EVENT_KIND_SYNC_FINISHED]

theorem apply_ingests_sync_count (now : String)
    (ing : List (InsertMessageBlobInput × IngestMessageLocationInput)) (db : Db) :
    count_events_of_kind (apply_ingests now db ing) EVENT_KIND_SYNC_FINISHED =
      count_events_of_kind db EVENT_KIND_SYNC_FINISHED := by
  induction ing generalizing db with
  | nil => rfl
  | cons p rest ih =>
    rcases p with ⟨b, l⟩
    rw [apply_ingests, ih, ingest_sync_count]

theorem update_cursor_events (db : Db) (j : Nat) (uv : Option Nat) (u : Nat)
    (lsa le : Option String) (now : String) :
    (update_mailbox_cursor db j uv u lsa le now).events = db.events := rfl

theorem run_outcome_sync_count (db : Db) (mb : MailboxRow) (oc : MailboxOutcome)
    (now : String) :
    count_events_of_kind (run_mailbox_outcome db mb oc now).1 EVENT_KIND_SYNC_FINISHED =
      count_events_of_kind db EVENT_KIND_SYNC_FINISHED := by
  cases oc with
  | ok ing uv mx =>
    unfold run_mailbox_outcome
    rw [count_events_congr _ (apply_ingests now db ing) _ (update_cursor_events ..)]
    exact apply_ingests_sync_count now ing db
  | err ing msg pmax =>
    unfold run_mailbox_outcome
    rw [count_events_congr _ (apply_ingests now db ing) _ (update_cursor_events ..)]
    exact apply_ingests_sync_count now ing db

theorem loop_sync_count (pairs : List (MailboxRow × MailboxOutcome)) (db : Db)
    (now : String) :
    count_events_of_kind (sync_account_loop db pairs now).1 EVENT_KIND_SYNC_FINISHED =
      count_events_of_kind db EVENT_KIND_SYNC_FINISHED := by
  induction pairs generalizing db with
  | nil => rfl
  | cons q rest ih =>
    show count_events_of_kind
        (sync_account_loop (run_mailbox_outcome db q.1 q.2 now).1 rest now).1 _ = _
    rw [ih, run_outcome_sync_count]

theorem loop_had_errors (pairs : List (MailboxRow × MailboxOutcome)) (db : Db)
    (now : String) :
    (sync_account_loop db pairs now).2 = pairs.any (fun p => outcome_is_err p.2) := by
  induction pairs generalizing db with
  | nil => rfl
  | cons q rest ih =>
    rcases q with ⟨mb, oc⟩
    show ((run_mailbox_outcome db mb oc now).2 ||
        (sync_account_loop (run_mailbox_outcome db mb oc now).1 rest now).2) = _
    rw [ih]
    cases oc <;> simp [run_mailbox_outcome, outcome_is_err, List.any_cons]

theorem cursor_updated_id (uv : Option Nat) (u : Nat) (lsa le : Option String)
    (now : String) (m : MailboxRow) : (cursor_updated uv u lsa le now m).id = m.id := rfl

theorem find_id_cons_pos (i : Nat) (a : MailboxRow) (l : List MailboxRow)
    (h : (a.id == i) = true) :
    List.find? (fun m => m.id == i) (a :: l) = some a :=
  List.find?_cons_of_pos l h

theorem find_id_cons_neg (i : Nat) (a : MailboxRow) (l : List MailboxRow)
    (h : (a.id == i) = false) :
    List.find? (fun m => m.id == i) (a :: l) = List.find? (fun m => m.id == i) l :=
  List.find?_cons_of_neg l (by rw [h]; exact Bool.false_ne_true)

theorem find?_cursor_map_ne (l : List MailboxRow) (i j : Nat) (hne : i ≠ j)
    (uv : Option Nat) (u : Nat) (lsa le : Option String) (now : String) :
    List.find? (fun m => m.id == i)
        (l.map (fun m => if m.id == j then cursor_updated uv u lsa le now m else m)) =
      List.find? (fun m => m.id == i) l := by
  induction l with
  | nil => rfl
  | cons m t ih =>
    rw [List.map_cons]
    by_cases hj : m.id = j
    · have hup : (if (m.id == j) = true then cursor_updated uv u lsa le now m else m) =
          cursor_updated uv u lsa le now m := if_pos (by rwa [beq_iff_eq])
      rw [hup]
      have hpm : (m.id == i) = false := by
        rw [beq_eq_false_iff_ne, hj]; exact fun hh => hne hh.symm
      have hpm' : ((cursor_updated uv u lsa le now m).id == i) = false := by
        rw [cursor_updated_id]; exact hpm
      rw [find_id_cons_neg i _ _ hpm', find_id_cons_neg i _ _ hpm, ih]
    · have hup : (if (m.id == j) = true then cursor_updated uv u lsa le now m else m) = m :=
        if_neg (by rw [beq_eq_false_iff_ne.mpr hj]; exact Bool.false_ne_true)
      rw [hup]
      by_cases hi : m.id = i
      · have hp : (m.id == i) = true := by rwa [beq_iff_eq]
        rw [find_id_cons_pos i _ _ hp, find_id_cons_pos i _ _ hp]
      · have hp : (m.id == i) = false := by rwa [beq_eq_false_iff_ne]
        rw [find_id_cons_neg i _ _ hp, find_id_cons_neg i _ _ hp, ih]

theorem find?_cursor_map_self (l : List MailboxRow) (i : Nat)
    (uv : Option Nat) (u : Nat) (lsa le : Option String) (now : String) :
    List.find? (fun m => m.id == i)
        (l.map (fun m => if m.id == i then cursor_updated uv u lsa le now m else m)) =
      (List.find? (fun m => m.id == i) l).map (cursor_updated uv u lsa le now) := by
  induction l with
  | nil => rfl
  | cons m t ih =>
    rw [List.map_cons]
    by_cases h : m.id = i
    · have hup : (if (m.id == i) = true then cursor_updated uv u lsa le now m else m) =
          cursor_updated uv u lsa le now m := if_pos (by rwa [beq_iff_eq])
      rw [hup]
      have hp : (m.id == i) = true := by rwa [beq_iff_eq]
      rw [find_id_cons_pos i _ _ (by rw [cursor_updated_id]; exact hp),
        find_id_cons_pos i _ _ hp, Option.map_some']
    · have hup : (if (m.id == i) = true then cursor_updated uv u lsa le now m else m) = m :=
        if_neg (by rw [beq_eq_false_iff_ne.mpr h]; exact Bool.false_ne_true)
      rw [hup]
      have hp : (m.id == i) = false := by rwa [beq_eq_false_iff_ne]
      rw [find_id_cons_neg i _ _ hp, find_id_cons_neg i _ _ hp, ih]

theorem find_mailbox_update_ne (db : Db) (i j : Nat) (hne : i ≠ j)
    (uv : Option Nat) (u : Nat) (lsa le : Option String) (now : String) :
    find_mailbox (update_mailbox_cursor db j uv u lsa le now) i = find_mailbox db i := by
  unfold find_mailbox update_mailbox_cursor
  exact find?_cursor_map_ne db.mailboxes i j hne uv u lsa le now

theorem find_mailbox_update_self (db : Db) (i : Nat)
    (uv : Option Nat) (u : Nat) (lsa le : Option String) (now : String) :
    find_mailbox (update_mailbox_cursor db i uv u lsa le now) i =
      (find_mailbox db i).map (cursor_updated uv u lsa le now) := by
  unfold find_mailbox update_mailbox_cursor
  exact find?_cursor_map_self db.mailboxes i uv u lsa le now

theorem find_mailbox_of_present (db : Db) (i : Nat)
    (h : i ∈ db.mailboxes.map (fun m => m.id)) :
    ∃ m, find_mailbox db i = some m := by
  obtain ⟨m, hm, hid⟩ := List.mem_map.mp h
  have : (db.mailboxes.find? (fun m => m.id == i)).isSome := by
    rw [List.find?_isSome]
    exact ⟨m, hm, by rw [hid]; exact beq_self_eq_true i⟩
  obtain ⟨x, hx⟩ := Option.isSome_iff_exists.mp this
  exact ⟨x, hx⟩

theorem update_cursor_id_map (db : Db) (j : Nat) (uv : Option Nat) (u : Nat)
    (lsa le : Option String) (now : String) :
    (update_mailbox_cursor db j uv u lsa le now).mailboxes.map (fun m => m.id) =
      db.mailboxes.map (fun m => m.id) := by
  unfold update_mailbox_cursor
  rw [List.map_map]
  refine List.map_congr_left ?_
  intro m _
  simp only [Function.comp_apply]
  split <;> rfl

theorem run_outcome_id_map (db : Db) (mb : MailboxRow) (oc : MailboxOutcome)
    (now : String) :
    (run_mailbox_outcome db mb oc now).1.mailboxes.map (fun m => m.id) =
      db.mailboxes.map (fun m => m.id) := by
  cases oc with
  | ok ing uv mx =>
    unfold run_mailbox_outcome
    rw [update_cursor_id_map, apply_ingests_mailboxes]
  | err ing msg pmax =>
    unfold run_mailbox_outcome
    rw [update_cursor_id_map, apply_ingests_mailboxes]

theorem run_outcome_find_ne (db : Db) (mb : MailboxRow) (oc : MailboxOutcome)
    (now : String) (i : Nat) (hne : i ≠ mb.id) :
    find_mailbox (run_mailbox_outcome db mb oc now).1 i = find_mailbox db i := by
  cases oc with
  | ok ing uv mx =>
    unfold run_mailbox_outcome
    rw [find_mailbox_update_ne _ _ _ hne,
      find_mailbox_congr _ db _ (apply_ingests_mailboxes now ing db)]
  | err ing msg pmax =>
    unfold run_mailbox_outcome
    rw [find_mailbox_update_ne _ _ _ hne,
      find_mailbox_congr _ db _ (apply_ingests_mailboxes now ing db)]

theorem run_outcome_find_self (db : Db) (mb : MailboxRow) (oc : MailboxOutcome)
    (now : String) (hp : mb.id ∈ db.mailboxes.map (fun m => m.id)) :
    ∃ m, find_mailbox (run_mailbox_outcome db mb oc now).1 mb.id = some m ∧
      outcome_cursor_matches m mb oc := by
  obtain ⟨m0, hm0⟩ := find_mailbox_of_present db mb.id hp
  cases oc with
  | ok ing uv mx =>
    refine ⟨cursor_updated uv mx (some now) none now m0, ?_, rfl, rfl, rfl⟩
    unfold run_mailbox_outcome
    rw [find_mailbox_update_self,
      find_mailbox_congr _ db _ (apply_ingests_mailboxes now ing db), hm0]
    rfl
  | err ing msg pmax =>
    refine ⟨cursor_updated mb.uidvalidity
        (if pmax > mb.last_seen_uid then pmax else mb.last_seen_uid)
        (some now) (some msg) now m0, ?_, ?_, rfl, rfl⟩
    · unfold run_mailbox_outcome
      rw [find_mailbox_update_self,
        find_mailbox_congr _ db _ (apply_ingests_mailboxes now ing db), hm0]
      rfl
    · show (if pmax > mb.last_seen_uid then pmax else mb.last_seen_uid) =
        max pmax mb.last_seen_uid
      split <;> omega

theorem loop_find_ne (pairs : List (MailboxRow × MailboxOutcome)) (db : Db)
    (now : String) (i : Nat) (h : i ∉ pairs.map (fun p => p.1.id)) :
    find_mailbox (sync_account_loop db pairs now).1 i = find_mailbox db i := by
  induction pairs generalizing db with
  | nil => rfl
  | cons q rest ih =>
    rw [List.map_cons, List.mem_cons, not_or] at h
    show find_mailbox
        (sync_account_loop (run_mailbox_outcome db q.1 q.2 now).1 rest now).1 i = _
    rw [ih _ h.2, run_outcome_find_ne db q.1 q.2 now i h.1]

theorem loop_cursor_state (pairs : List (MailboxRow × MailboxOutcome)) (db : Db)
    (now : String)
    (hnd : (pairs.map (fun p => p.1.id)).Nodup)
    (hmem : ∀ p ∈ pairs, p.1.id ∈ db.mailboxes.map (fun m => m.id)) :
    ∀ p ∈ pairs, ∃ m,
      find_mailbox (sync_account_loop db pairs now).1 p.1.id = some m ∧
      outcome_cursor_matches m p.1 p.2 := by
  induction pairs generalizing db with
  | nil => intro p hp; cases hp
  | cons q rest ih =>
    intro p hp
    rw [List.map_cons, List.nodup_cons] at hnd
    rcases List.mem_cons.mp hp with rfl | hp'
    · obtain ⟨m, hfind, hmatch⟩ :=
        run_outcome_find_self db p.1 p.2 now (hmem p (List.mem_cons_self p rest))
      refine ⟨m, ?_, hmatch⟩
      show find_mailbox
          (sync_account_loop (run_mailbox_outcome db p.1 p.2 now).1 rest now).1 p.1.id = some m
      rw [loop_find_ne rest _ now p.1.id hnd.1, hfind]
    · have hmem' : ∀ r ∈ rest,
          r.1.id ∈ (run_mailbox_outcome db q.1 q.2 now).1.mailboxes.map (fun m => m.id) := by
        intro r hr
        rw [run_outcome_id_map]
        exact hmem r (List.mem_cons_of_mem _ hr)
      exact ih _ hnd.2 hmem' p hp'

theorem count_insert_event (db : Db) (i : InsertEventInput) (k : String)
    (hk : i.kind = k) :
    count_events_of_kind (insert_event_tx db i).1 k =
      count_events_of_kind db k + 1 := by
  unfold count_events_of_kind
  rw [insert_event_events, List.filter_append, List.length_append]
  simp [new_event_row, hk]

theorem count_create_sync (db : Db) (a : Nat) (s : String) (i g : Nat) (now : String) :
    count_events_of_kind (create_sync_finished_event db a s i g now)
        EVENT_KIND_SYNC_FINISHED =
      count_events_of_kind db EVENT_KIND_SYNC_FINISHED + 1 := by
  unfold create_sync_finished_event
  exact count_insert_event db _ _ rfl

theorem create_sync_event_shape (db : Db) (a : Nat) (s : String) (i g : Nat)
    (now : String) :
    ∃ e : EventRow,
      (create_sync_finished_event db a s i g now).events = db.events ++ [e] ∧
      e.kind = EVENT_KIND_SYNC_FINISHED ∧
      e.detail = some (sync_finished_detail s i g
        (compute_message_blobs_root_hash db) (count_message_blobs db)) := by
  unfold create_sync_finished_event
  exact ⟨_, insert_event_events _ _, rfl, rfl⟩

/-- C9: per the error branch of the sync loop, every errored mailbox has its
cursor persisted as `max(partial_max_uid, prior cursor)` with `last_error`
recorded while successful mailboxes get their final cursor with `last_error`
cleared — errors do not abort the run, every mailbox (before and after an
error) reaches its final cursor state — and after all mailboxes exactly one
`sync_finished` event is appended, with status `"partial"` when any mailbox
errored and `"ok"` otherwise. -/
theorem sync_error_isolation (db : Db) (account_id : Nat)
    (pairs : List (MailboxRow × MailboxOutcome)) (now : String)
    (hnd : (pairs.map (fun p => p.1.id)).Nodup)
    (hmem : ∀ p ∈ pairs, p.1.id ∈ db.mailboxes.map (fun m => m.id)) :
    count_events_of_kind (sync_account_once db account_id pairs now)
        EVENT_KIND_SYNC_FINISHED =
      count_events_of_kind db EVENT_KIND_SYNC_FINISHED + 1 ∧
    (∃ e : EventRow,
      (sync_account_once db account_id pairs now).events =
        (sync_account_loop db pairs now).1.events ++ [e] ∧
      e.kind = EVENT_KIND_SYNC_FINISHED ∧
      e.detail = some (sync_finished_detail
        (if pairs.any (fun p => outcome_is_err p.2) then "partial" else "ok")
        (messages_ingested pairs) 0
        (compute_message_blobs_root_hash (sync_account_loop db pairs now).1)
        (count_message_blobs (sync_account_loop db pairs now).1))) ∧
    ∀ p ∈ pairs, ∃ m,
      find_mailbox (sync_account_once db account_id pairs now) p.1.id = some m ∧
      outcome_cursor_matches m p.1 p.2 := by
  have hshape :
      sync_account_once db account_id pairs now =
        create_sync_finished_event (sync_account_loop db pairs now).1 account_id
          (if pairs.any (fun p => outcome_is_err p.2) then "partial" else "ok")
          (messages_ingested pairs) 0 now := by
    show create_sync_finished_event (sync_account_loop db pairs now).1 account_id
        (if (sync_account_loop db pairs now).2 then "partial" else "ok")
        (messages_ingested pairs) 0 now = _
    rw [loop_had_errors]
  refine ⟨?_, ?_, ?_⟩
  · rw [hshape, count_create_sync, loop_sync_count]
  · rw [hshape]
    exact create_sync_event_shape (sync_account_loop db pairs now).1 account_id _ _ _ now
  · intro p hp
    obtain ⟨m, hfind, hmatch⟩ := loop_cursor_state pairs db now hnd hmem p hp
    refine ⟨m, ?_, hmatch⟩
    rw [hshape]
    exact hfind

/-- C9 witness: the partial-failure scenario — first mailbox succeeds, second
errors — leaves the error recorded on the second mailbox's cursor and the
first mailbox advanced. -/
theorem sync_error_isolation_witness :
    ((syncScenarioPairs.map (fun p => p.1.id)).Nodup ∧
      ∀ p ∈ syncScenarioPairs,
        p.1.id ∈ syncScenarioDb.mailboxes.map (fun m => m.id)) ∧
    ∀ p ∈ syncScenarioPairs, ∃ m,
      find_mailbox
        (sync_account_once syncScenarioDb 1 syncScenarioPairs "2024-02-01T00:00:00Z")
        p.1.id = some m ∧
      outcome_cursor_matches m p.1 p.2 :=
  ⟨⟨by decide, by decide⟩,
   (sync_error_isolation syncScenarioDb 1 syncScenarioPairs "2024-02-01T00:00:00Z"
     (by decide) (by decide)).2.2⟩

end Amberize
